import Mathlib

/-!
Verification of the TafelKampioen exercise-generation, mastery-tracking and
session logic.  The definitions below are a shallow embedding of the
application code (`App.tsx` together with `types.ts`): JavaScript numbers
become `ℤ` (all values involved are integers) or `ℚ` (the `Math.random()`
draws and the countdown timer), the mastery object becomes an association
list keyed by the same strings the code builds, and every call to
`Math.random()` is modelled by reading the next element of an explicit
stream `rs : ℕ → ℚ` of draws in `[0,1)`.
-/

/-- `Operation` from `types.ts`. -/
inductive Operation
  | multiplication
  | division
deriving DecidableEq, Repr

/-- `Exercise` from `types.ts`.  `display` and `isChallenge` are optional in
the source; absent fields are `none` / `false`. -/
structure Exercise where
  a : ℤ
  b : ℤ
  op : Operation
  result : ℤ
  display : Option String := none
  isChallenge : Bool := false
deriving DecidableEq, Repr

/-- `exerciseCount` of `UserSettings` in `types.ts`: one of `10 | 20 | 50 | 'all'`. -/
inductive ExerciseCount
  | c10
  | c20
  | c50
  | all
deriving DecidableEq, Repr

/-- `UserSettings` from `types.ts`. -/
structure UserSettings where
  multiplicationTables : List ℤ
  divisionTables : List ℤ
  exerciseCount : ExerciseCount
deriving DecidableEq, Repr

/-- `MasteryData` from `types.ts`: a string-keyed map of numbers, modelled as
an association list (first binding wins on lookup). -/
def MasteryData : Type := List (String × ℤ)

instance : DecidableEq MasteryData := by
  unfold MasteryData
  infer_instance

/-- The string prefix the code uses in mastery keys for each operation. -/
def opName : Operation → String
  | Operation.multiplication => "multiplication"
  | Operation.division => "division"

/-- The template literal key used by the code, for example `"division-5"`. -/
def masteryKey (op : Operation) (t : ℤ) : String :=
  opName op ++ "-" ++ toString t

/-- `mastery[key] || 0`: a missing key (and the falsy value `0`) reads as `0`. -/
def masteryScore (m : MasteryData) (k : String) : ℤ :=
  (List.lookup k m).getD 0

/-- `{ ...prev, [key]: v }`: replace the binding for `key`. -/
def masterySet (m : MasteryData) (k : String) (v : ℤ) : MasteryData :=
  (k, v) :: m.filter (fun p => p.1 != k)

/-- `isCorrect ? Math.min(10, s + 1) : Math.max(0, s - 1)` in `handleAnswer`. -/
def nextScore (s : ℤ) (isCorrect : Bool) : ℤ :=
  if isCorrect then min 10 (s + 1) else max 0 (s - 1)

/-- `availableOps.push(...)` at the top of `generateExercise`:
multiplication first, then division, each only if its table list is non-empty. -/
def availableOperations (settings : UserSettings) : List Operation :=
  (if settings.multiplicationTables.length > 0 then [Operation.multiplication] else []) ++
    (if settings.divisionTables.length > 0 then [Operation.division] else [])

/-- `availableOps[Math.floor(Math.random() * availableOps.length)]`. -/
def pickedOperation (ops : List Operation) (r : ℚ) : Operation :=
  ops.getD (⌊r * (ops.length : ℚ)⌋).toNat Operation.multiplication

/-- `op === 'multiplication' ? settings.multiplicationTables : settings.divisionTables`. -/
def selectedTablesFor (settings : UserSettings) (op : Operation) : List ℤ :=
  if op = Operation.multiplication then settings.multiplicationTables
  else settings.divisionTables

/-- `selectedTables.map(t => 11 - (mastery[`op-t`] || 0))`. -/
def tableWeights (op : Operation) (tables : List ℤ) (mastery : MasteryData) : List ℤ :=
  tables.map (fun t => 11 - masteryScore mastery (masteryKey op t))

/-- The `for` loop of the weighted selection: subtract weights until the
running value drops to `≤ 0`, returning the index of the first such weight
(`none` if the loop runs out, in which case `tableIndex` keeps its initial value `0`). -/
def weightedIndexAux : ℚ → List ℤ → Option ℕ
  | _, [] => none
  | r, w :: ws =>
    if r - (w : ℚ) ≤ 0 then some 0
    else
      match weightedIndexAux (r - (w : ℚ)) ws with
      | none => none
      | some i => some (i + 1)

/-- `tableIndex` after the weighted-selection loop (initialised to `0`). -/
def weightedIndex (r : ℚ) (ws : List ℤ) : ℕ :=
  (weightedIndexAux r ws).getD 0

/-- The table chosen by one attempt: weighted random selection over the
operation's table list with `random = Math.random() * totalWeight`. -/
def pickedTable (settings : UserSettings) (mastery : MasteryData) (op : Operation) (r : ℚ) : ℤ :=
  let tables := selectedTablesFor settings op
  let weights := tableWeights op tables mastery
  tables.getD (weightedIndex (r * ((weights.sum : ℤ) : ℚ)) weights) 0

/-- The template literal `` `(${table} × ${b}) + ${c}` ``. -/
def compoundDisplay (t b c : ℤ) : String :=
  s!"({t} × {b}) + {c}"

/-- The `score < 3` / normal part of the multiplication branch: pick the other
operand (from `[0,1,2,5,10]` when simple, from `[0,10]` when normal) and
randomise the operand order. -/
def multPlain (table score : ℤ) (rs : ℕ → ℚ) (k : ℕ) : Exercise × ℕ :=
  if score < 3 then
    let other : ℤ := [0, 1, 2, 5, 10].getD (⌊rs k * 5⌋).toNat 0
    let p : ℤ × ℤ := if rs (k + 1) > 1/2 then (table, other) else (other, table)
    ({ a := p.1, b := p.2, op := Operation.multiplication, result := p.1 * p.2 }, k + 2)
  else
    let other : ℤ := ⌊rs k * 11⌋
    let p : ℤ × ℤ := if rs (k + 1) > 1/2 then (table, other) else (other, table)
    ({ a := p.1, b := p.2, op := Operation.multiplication, result := p.1 * p.2 }, k + 2)

/-- The multiplication branch of one generation attempt.  The guard
`score > 8 && Math.random() > 0.5` consumes a draw only when `score > 8`,
which the nested `if` reproduces. -/
def multExercise (table score : ℤ) (rs : ℕ → ℚ) (k : ℕ) : Exercise × ℕ :=
  if score > 8 then
    if rs k > 1/2 then
      if rs (k + 1) > 1/2 then
        let other : ℤ := 11 + ⌊rs (k + 2) * 5⌋
        ({ a := table, b := other, op := Operation.multiplication,
           result := table * other, isChallenge := true }, k + 3)
      else
        let b : ℤ := ⌊rs (k + 2) * 11⌋
        let c : ℤ := 1 + ⌊rs (k + 3) * 10⌋
        ({ a := table, b := b, op := Operation.multiplication,
           result := table * b + c,
           display := some (compoundDisplay table b c), isChallenge := true }, k + 4)
    else
      multPlain table score rs (k + 1)
  else
    multPlain table score rs k

/-- The `score < 3` / normal part of the division branch. -/
def divPlain (table score : ℤ) (rs : ℕ → ℚ) (k : ℕ) : Exercise × ℕ :=
  if score < 3 then
    let b : ℤ := [1, 2, 5, 10].getD (⌊rs k * 4⌋).toNat 0
    ({ a := table * b, b := table, op := Operation.division, result := b }, k + 1)
  else
    let b : ℤ := ⌊rs k * 11⌋
    ({ a := table * b, b := table, op := Operation.division, result := b }, k + 1)

/-- The division branch of one generation attempt. -/
def divExercise (table score : ℤ) (rs : ℕ → ℚ) (k : ℕ) : Exercise × ℕ :=
  if score > 8 then
    if rs k > 1/2 then
      let b : ℤ := 11 + ⌊rs (k + 1) * 5⌋
      ({ a := table * b, b := table, op := Operation.division,
         result := b, isChallenge := true }, k + 2)
    else
      divPlain table score rs (k + 1)
  else
    divPlain table score rs k

/-- One iteration of the `while (attempts < 20)` loop body, up to the
candidate exercise; also returns the position in the random stream reached. -/
def attemptBody (settings : UserSettings) (mastery : MasteryData)
    (availableOps : List Operation) (rs : ℕ → ℚ) (k : ℕ) : Exercise × ℕ :=
  let op := pickedOperation availableOps (rs k)
  let table := pickedTable settings mastery op (rs (k + 1))
  let score := masteryScore mastery (masteryKey op table)
  if op = Operation.multiplication then multExercise table score rs (k + 2)
  else divExercise table score rs (k + 2)

/-- `!previous || (next.a !== previous.a && next.b !== previous.b && next.result !== previous.result)`. -/
def acceptCandidate (previous : Option Exercise) (next : Exercise) : Bool :=
  match previous with
  | none => true
  | some p => next.a != p.a && next.b != p.b && next.result != p.result

/-- The attempt loop of `generateExercise`, with the remaining attempt count
as fuel (20 at the top-level call). -/
def generateLoop (settings : UserSettings) (mastery : MasteryData)
    (previous : Option Exercise) (availableOps : List Operation)
    (rs : ℕ → ℚ) : ℕ → ℕ → Option Exercise
  | 0, _ => none
  | fuel + 1, k =>
    let r := attemptBody settings mastery availableOps rs k
    if acceptCandidate previous r.1 then some r.1
    else generateLoop settings mastery previous availableOps rs fuel r.2

/-- `generateExercise(previous?)` from the source, with the random draws
made explicit as the stream `rs`. -/
def generateExercise (settings : UserSettings) (mastery : MasteryData)
    (previous : Option Exercise) (rs : ℕ → ℚ) : Option Exercise :=
  let ops := availableOperations settings
  if ops.length = 0 then none
  else generateLoop settings mastery previous ops rs 20 0

/-!  A model of the JavaScript built-in `parseInt(string)` with no radix
argument: skip leading whitespace, read an optional sign, detect a `0x`/`0X`
hexadecimal prefix (radix 16, otherwise 10), then read the longest prefix of
valid digits.  `none` models the `NaN` outcome (no digit at all), which
compares unequal to every number. -/

/-- Value of a character as a hexadecimal digit, if it is one. -/
def hexDigitVal (c : Char) : Option ℕ :=
  if '0' ≤ c ∧ c ≤ '9' then some (c.toNat - 48)
  else if 'a' ≤ c ∧ c ≤ 'f' then some (c.toNat - 87)
  else if 'A' ≤ c ∧ c ≤ 'F' then some (c.toNat - 55)
  else none

/-- Value of a character as a digit in the given radix, if valid. -/
def digitValue (radix : ℕ) (c : Char) : Option ℕ :=
  match hexDigitVal c with
  | some v => if v < radix then some v else none
  | none => none

/-- Accumulate the longest prefix of valid digits. -/
def parseDigitsAux (radix : ℕ) : List Char → ℕ → ℕ
  | [], acc => acc
  | c :: cs, acc =>
    match digitValue radix c with
    | some v => parseDigitsAux radix cs (acc * radix + v)
    | none => acc

/-- `parseInt(s)` as used by `handleAnswer`; `none` stands for `NaN`. -/
def jsParseInt (s : String) : Option ℤ :=
  let cs := s.data.dropWhile Char.isWhitespace
  let signAndRest : ℤ × List Char :=
    match cs with
    | '-' :: rest => (-1, rest)
    | '+' :: rest => (1, rest)
    | _ => (1, cs)
  let radixAndDigits : ℕ × List Char :=
    match signAndRest.2 with
    | '0' :: 'x' :: rest => (16, rest)
    | '0' :: 'X' :: rest => (16, rest)
    | _ => (10, signAndRest.2)
  match radixAndDigits.2 with
  | [] => none
  | c :: _ =>
    match digitValue radixAndDigits.1 c with
    | none => none
    | some _ =>
      some (signAndRest.1 * (parseDigitsAux radixAndDigits.1 radixAndDigits.2 0 : ℤ))

/-!  The session state machine of the component: the pieces of React state
that the claims are about, and the handlers that mutate them.  The 1-second
`setTimeout` callback inside `handleAnswer` is modelled as a second phase
applied to the state produced by the synchronous phase; the callback closes
over the render-time `generateExercise`, whose captured `mastery` is the
value from before the update, which the model reproduces by generating from
the pre-answer mastery. -/

/-- The `mode` state: `'settings' | 'practice' | 'results'`. -/
inductive Mode
  | settings
  | practice
  | results
deriving DecidableEq, Repr

/-- The `feedback` state: `'correct' | 'incorrect' | null` (as an `Option`). -/
inductive Feedback
  | correct
  | incorrect
deriving DecidableEq, Repr

/-- The `stats` state. -/
structure Stats where
  correct : ℕ
  total : ℕ
deriving DecidableEq, Repr

/-- The component state relevant to the session state machine. -/
structure SessionState where
  mode : Mode
  settings : UserSettings
  mastery : MasteryData
  currentExercise : Option Exercise
  userAnswer : String
  feedback : Option Feedback
  stats : Stats
  history : List (Exercise × Bool)
  timeLeft : ℚ
deriving DecidableEq

/-- `answer !== null && parseInt(answer) === currentExercise.result`. -/
def isCorrectAnswer (answer : Option String) (ex : Exercise) : Bool :=
  match answer with
  | none => false
  | some s => decide (jsParseInt s = some ex.result)

/-- The mastery table credited by `handleAnswer`: for multiplication,
`settings.multiplicationTables.includes(a) ? a : b`; for division, `b`. -/
def creditedTable (settings : UserSettings) (ex : Exercise) : ℤ :=
  match ex.op with
  | Operation.multiplication =>
    if settings.multiplicationTables.contains ex.a then ex.a else ex.b
  | Operation.division => ex.b

/-- The synchronous part of `handleAnswer(answer)`: the guard, correctness
check, feedback, mastery update, stats update and history append.  (The timer
stop has no effect on the modelled state.) -/
def handleAnswerImmediate (st : SessionState) (answer : Option String) : SessionState :=
  match st.currentExercise with
  | none => st
  | some ex =>
    if st.feedback.isSome then st
    else
      let isCorrect := isCorrectAnswer answer ex
      let key := masteryKey ex.op (creditedTable st.settings ex)
      let nextSc := nextScore (masteryScore st.mastery key) isCorrect
      { st with
        feedback := some (if isCorrect then Feedback.correct else Feedback.incorrect),
        mastery := masterySet st.mastery key nextSc,
        stats := { correct := st.stats.correct + (if isCorrect then 1 else 0),
                   total := st.stats.total + 1 },
        history := st.history ++ [(ex, isCorrect)] }

/-- `handleAnswer(answer)` including the `setTimeout` callback: when the new
`stats.total` has reached the hard-coded `10`, switch to results; otherwise
generate the next exercise (the just-answered one as `previous`, with the
pre-update mastery captured by the callback's closure), clear the input and
feedback, and restart the timer at 15. -/
def handleAnswerFull (st : SessionState) (answer : Option String) (rs : ℕ → ℚ) : SessionState :=
  match st.currentExercise with
  | none => st
  | some ex =>
    if st.feedback.isSome then st
    else
      let st1 := handleAnswerImmediate st answer
      if st1.stats.total ≥ 10 then { st1 with mode := Mode.results }
      else
        { st1 with
          currentExercise := generateExercise st.settings st.mastery (some ex) rs,
          userAnswer := "", feedback := none, timeLeft := 15 }

/-- One tick of the interval in `startTimer`: if the remaining time is
`≤ 0.05` the timer stops at `0` and a timeout submission fires (second
component `true`); otherwise the time decreases by `0.05`. -/
def tickTimer (t : ℚ) : ℚ × Bool :=
  if t ≤ 1/20 then (0, true) else (t - 1/20, false)

/-- `handleSubmit`: ignore an empty input, otherwise submit the typed answer. -/
def handleSubmit (st : SessionState) : SessionState :=
  if st.userAnswer = "" then st else handleAnswerImmediate st (some st.userAnswer)

/-! ### Helper lemmas -/

theorem operation_div_ne_mult : Operation.division ≠ Operation.multiplication := by
  decide

/-- `Math.floor(r * n)` is non-negative for a draw `r ≥ 0` and `n ≥ 0`. -/
theorem jsFloor_nonneg (r q : ℚ) (h0 : 0 ≤ r) (hq : 0 ≤ q) : 0 ≤ ⌊r * q⌋ := by
  exact Int.le_floor.mpr (by exact_mod_cast mul_nonneg h0 hq)

/-- `Math.floor(r * n) < n` for a draw `r < 1` and positive `n`. -/
theorem jsFloor_lt (r : ℚ) (n : ℤ) (h1 : r < 1) (hn : 0 < n) : ⌊r * (n : ℚ)⌋ < n := by
  apply Int.floor_lt.mpr
  calc r * (n : ℚ) < 1 * (n : ℚ) := by
        apply mul_lt_mul_of_pos_right h1
        exact_mod_cast hn
    _ = (n : ℚ) := one_mul _
    _ ≤ ((n : ℤ) : ℚ) := by norm_num

/-- An in-range `getD` yields a member of the list. -/
theorem getD_mem_of_lt {α : Type} (l : List α) (i : ℕ) (d : α) (h : i < l.length) :
    l.getD i d ∈ l := by
  rw [List.getD_eq_getElem?_getD, List.getElem?_eq_getElem h]
  exact List.getElem_mem h

/-- An out-of-range `getD` yields the default. -/
theorem getD_eq_default_of_le {α : Type} (l : List α) (i : ℕ) (d : α) (h : l.length ≤ i) :
    l.getD i d = d := by
  rw [List.getD_eq_getElem?_getD, List.getElem?_eq_none h]
  rfl

/-- Looking up the freshly written key reads back the written value. -/
theorem masteryScore_masterySet_self (m : MasteryData) (k : String) (v : ℤ) :
    masteryScore (masterySet m k v) k = v := by
  simp [masteryScore, masterySet, List.lookup]

/-- Filtering out another key's bindings does not change a lookup. -/
theorem lookup_filter_ne (m : MasteryData) (k k2 : String) (h : k2 ≠ k) :
    List.lookup k2 (m.filter (fun p => p.1 != k)) = List.lookup k2 m := by
  induction m with
  | nil => rfl
  | cons p m ih =>
    by_cases hpk : p.1 = k
    · have hk2k : (k2 == k) = false := by simp [h]
      simp [List.filter, hpk, List.lookup, hk2k, ih]
    · simp only [List.filter, List.lookup]
      have : (p.1 != k) = true := by simp [hpk]
      rw [this]
      by_cases hk2p : k2 = p.1
      · simp [List.lookup, hk2p]
      · have h1 : (k2 == p.1) = false := by simp [hk2p]
        simp [List.lookup, h1, ih]

/-- Writing one key leaves every other key's score unchanged. -/
theorem masteryScore_masterySet_ne (m : MasteryData) (k k2 : String) (v : ℤ)
    (h : k2 ≠ k) : masteryScore (masterySet m k v) k2 = masteryScore m k2 := by
  have h1 : (k2 == k) = false := by simp [h]
  simp only [masteryScore, masterySet, List.lookup, h1]
  rw [lookup_filter_ne m k k2 h]

/-- If the weighted-selection loop breaks, it breaks inside the list. -/
theorem weightedIndexAux_lt_length :
    ∀ (ws : List ℤ) (r : ℚ) (i : ℕ), weightedIndexAux r ws = some i → i < ws.length := by
  intro ws
  induction ws with
  | nil => intro r i h; simp [weightedIndexAux] at h
  | cons w ws ih =>
    intro r i h
    simp only [weightedIndexAux] at h
    by_cases hc : r - (w : ℚ) ≤ 0
    · rw [if_pos hc] at h
      cases h
      simp
    · rw [if_neg hc] at h
      cases haux : weightedIndexAux (r - (w : ℚ)) ws with
      | none => rw [haux] at h; cases h
      | some j =>
        rw [haux] at h
        cases h
        have := ih (r - (w : ℚ)) j haux
        simp only [List.length_cons]
        omega

/-- `tableIndex` stays inside the (non-empty) weight list. -/
theorem weightedIndex_lt_length (r : ℚ) (ws : List ℤ) (h : ws ≠ []) :
    weightedIndex r ws < ws.length := by
  unfold weightedIndex
  cases haux : weightedIndexAux r ws with
  | none =>
    simp only [Option.getD_none]
    exact List.length_pos.mpr h
  | some i =>
    simp only [Option.getD_some]
    exact weightedIndexAux_lt_length ws r i haux

/-- When the drawn value is at most the total weight, the loop breaks at the
first index whose cumulative weight absorbs the draw. -/
theorem weightedIndexAux_first_hit :
    ∀ (ws : List ℤ) (r : ℚ), ws ≠ [] → r ≤ ((ws.sum : ℤ) : ℚ) →
      ∃ i, weightedIndexAux r ws = some i ∧
        r - (((ws.take (i + 1)).sum : ℤ) : ℚ) ≤ 0 ∧
        ∀ j < i, 0 < r - (((ws.take (j + 1)).sum : ℤ) : ℚ) := by
  intro ws
  induction ws with
  | nil => intro r h; exact absurd rfl h
  | cons w ws ih =>
    intro r _ hsum
    by_cases hc : r - (w : ℚ) ≤ 0
    · refine ⟨0, ?_, ?_, ?_⟩
      · simp [weightedIndexAux, hc]
      · simpa using hc
      · intro j hj; omega
    · have hws : ws ≠ [] := by
        intro hnil
        subst hnil
        simp at hsum
        exact hc (by linarith)
      have hsum2 : r - (w : ℚ) ≤ ((ws.sum : ℤ) : ℚ) := by
        simp only [List.sum_cons] at hsum
        push_cast at hsum ⊢
        linarith
      obtain ⟨i, haux, hhit, hbefore⟩ := ih (r - (w : ℚ)) hws hsum2
      refine ⟨i + 1, ?_, ?_, ?_⟩
      · simp [weightedIndexAux, hc, haux]
      · simp only [List.take_succ_cons, List.sum_cons]
        push_cast
        push_cast at hhit
        linarith
      · intro j hj
        cases j with
        | zero =>
          simp only [List.take_succ_cons, List.take_zero, List.sum_cons, List.sum_nil]
          push_cast
          linarith [not_le.mp hc]
        | succ j' =>
          have hj' : j' < i := by omega
          have := hbefore j' hj'
          simp only [List.take_succ_cons, List.sum_cons]
          push_cast
          push_cast at this
          linarith

/-- With a draw in `[0,1)` and a non-empty operation list, the picked
operation is a member of the list. -/
theorem pickedOperation_mem (ops : List Operation) (r : ℚ)
    (h0 : 0 ≤ r) (h1 : r < 1) (hne : ops ≠ []) : pickedOperation ops r ∈ ops := by
  unfold pickedOperation
  have hlen : 0 < ops.length := List.length_pos.mpr hne
  have hflo : 0 ≤ ⌊r * (ops.length : ℚ)⌋ := jsFloor_nonneg r _ h0 (by positivity)
  have hfhi : ⌊r * (ops.length : ℚ)⌋ < (ops.length : ℤ) := by
    have := jsFloor_lt r (ops.length : ℤ) h1 (by exact_mod_cast hlen)
    simpa using this
  exact getD_mem_of_lt ops _ _ (by omega)

/-- The picked operation can only be `division` if `division` is in the
operation list (the out-of-range default is `multiplication`). -/
theorem pickedOperation_div_mem (ops : List Operation) (r : ℚ)
    (h : pickedOperation ops r = Operation.division) : Operation.division ∈ ops := by
  unfold pickedOperation at h
  by_cases hlt : (⌊r * (ops.length : ℚ)⌋).toNat < ops.length
  · rw [← h]
    exact getD_mem_of_lt ops _ _ hlt
  · rw [getD_eq_default_of_le ops _ _ (by omega)] at h
    exact absurd h.symm operation_div_ne_mult

/-- The table picked by weighted selection over a non-empty table list is a
member of that list. -/
theorem pickedTable_mem (settings : UserSettings) (mastery : MasteryData)
    (op : Operation) (r : ℚ) (h : selectedTablesFor settings op ≠ []) :
    pickedTable settings mastery op r ∈ selectedTablesFor settings op := by
  unfold pickedTable
  have hlen : (tableWeights op (selectedTablesFor settings op) mastery).length
      = (selectedTablesFor settings op).length := by
    simp [tableWeights]
  have hw : tableWeights op (selectedTablesFor settings op) mastery ≠ [] := by
    intro hnil
    apply h
    have := congrArg List.length hnil
    rw [hlen] at this
    exact List.length_eq_zero.mp this
  have := weightedIndex_lt_length
    ((r * (((tableWeights op (selectedTablesFor settings op) mastery).sum : ℤ) : ℚ)))
    (tableWeights op (selectedTablesFor settings op) mastery) hw
  exact getD_mem_of_lt _ _ _ (by omega)

/-- Membership in `availableOps` ties each operation to its table list being
non-empty. -/
theorem mem_availableOperations (settings : UserSettings) (op : Operation)
    (h : op ∈ availableOperations settings) :
    (op = Operation.multiplication → settings.multiplicationTables ≠ []) ∧
    (op = Operation.division → settings.divisionTables ≠ []) := by
  unfold availableOperations at h
  rcases List.mem_append.mp h with h1 | h1
  · by_cases hm : settings.multiplicationTables.length > 0
    · rw [if_pos hm] at h1
      simp at h1
      subst h1
      constructor
      · intro _
        intro hnil
        rw [hnil] at hm
        simp at hm
      · intro hc
        exact absurd hc.symm operation_div_ne_mult
    · rw [if_neg hm] at h1
      simp at h1
  · by_cases hd : settings.divisionTables.length > 0
    · rw [if_pos hd] at h1
      simp at h1
      subst h1
      constructor
      · intro hc
        exact absurd hc operation_div_ne_mult
      · intro _
        intro hnil
        rw [hnil] at hd
        simp at hd
    · rw [if_neg hd] at h1
      simp at h1

/-- Every exercise returned by the attempt loop is the candidate of some
attempt. -/
theorem generateLoop_some (settings : UserSettings) (mastery : MasteryData)
    (previous : Option Exercise) (availableOps : List Operation) (rs : ℕ → ℚ) :
    ∀ (fuel k : ℕ) (e : Exercise),
      generateLoop settings mastery previous availableOps rs fuel k = some e →
      ∃ j, (attemptBody settings mastery availableOps rs j).1 = e := by
  intro fuel
  induction fuel with
  | zero => intro k e h; simp [generateLoop] at h
  | succ fuel ih =>
    intro k e h
    simp only [generateLoop] at h
    by_cases hacc : acceptCandidate previous (attemptBody settings mastery availableOps rs k).1
    · rw [if_pos hacc] at h
      exact ⟨k, by injection h⟩
    · rw [if_neg hacc] at h
      exact ih _ e h

/-- Every exercise returned by `generateExercise` is the candidate of some
attempt, and the operation list was non-empty. -/
theorem generateExercise_some (settings : UserSettings) (mastery : MasteryData)
    (previous : Option Exercise) (rs : ℕ → ℚ) (e : Exercise)
    (h : generateExercise settings mastery previous rs = some e) :
    availableOperations settings ≠ [] ∧
      ∃ j, (attemptBody settings mastery (availableOperations settings) rs j).1 = e := by
  unfold generateExercise at h
  by_cases hz : (availableOperations settings).length = 0
  · rw [if_pos hz] at h
    cases h
  · rw [if_neg hz] at h
    refine ⟨fun hnil => hz (by rw [hnil]; rfl), ?_⟩
    exact generateLoop_some settings mastery previous _ rs 20 0 e h

/-- The division branch always produces `op = division`, `b = table` and
`a = b * result`, in all three difficulty bands. -/
theorem divExercise_fields (table score : ℤ) (rs : ℕ → ℚ) (k : ℕ) :
    (divExercise table score rs k).1.op = Operation.division ∧
    (divExercise table score rs k).1.b = table ∧
    (divExercise table score rs k).1.a =
      (divExercise table score rs k).1.b * (divExercise table score rs k).1.result := by
  unfold divExercise divPlain
  dsimp only
  split_ifs <;> exact ⟨rfl, rfl, rfl⟩

/-- The multiplication branch always produces `op = multiplication`. -/
theorem multExercise_op (table score : ℤ) (rs : ℕ → ℚ) (k : ℕ) :
    (multExercise table score rs k).1.op = Operation.multiplication := by
  unfold multExercise multPlain
  dsimp only
  split_ifs <;> rfl

/-- The multiplication branch: plain exercises satisfy `a * b = result`;
compound (`display`) exercises have `a = table`, `b ∈ [0,10]` and
`result = a * b + c` for some `c ∈ [1,10]`. -/
theorem multExercise_spec (table score : ℤ) (rs : ℕ → ℚ) (k : ℕ)
    (hrs : ∀ n, 0 ≤ rs n ∧ rs n < 1) :
    ((multExercise table score rs k).1.display = none →
      (multExercise table score rs k).1.a * (multExercise table score rs k).1.b =
        (multExercise table score rs k).1.result) ∧
    ((multExercise table score rs k).1.display ≠ none →
      (multExercise table score rs k).1.a = table ∧
      0 ≤ (multExercise table score rs k).1.b ∧
      (multExercise table score rs k).1.b ≤ 10 ∧
      ∃ c, 1 ≤ c ∧ c ≤ 10 ∧
        (multExercise table score rs k).1.result =
          (multExercise table score rs k).1.a * (multExercise table score rs k).1.b + c) := by
  unfold multExercise multPlain
  dsimp only
  split_ifs with h1 h2 h3
  · exact ⟨fun _ => rfl, fun hd => absurd rfl hd⟩
  · constructor
    · intro hd
      exact absurd hd (by simp)
    · intro _
      dsimp only
      refine ⟨rfl, ?_, ?_, 1 + ⌊rs (k + 3) * 10⌋, ?_, ?_, rfl⟩
      · exact jsFloor_nonneg _ _ (hrs (k + 2)).1 (by norm_num)
      · have h := jsFloor_lt (rs (k + 2)) 11 (hrs (k + 2)).2 (by norm_num)
        push_cast at h
        omega
      · have h := jsFloor_nonneg (rs (k + 3)) 10 (hrs (k + 3)).1 (by norm_num)
        omega
      · have h := jsFloor_lt (rs (k + 3)) 10 (hrs (k + 3)).2 (by norm_num)
        push_cast at h
        omega
  all_goals exact ⟨fun _ => rfl, fun hd => absurd rfl hd⟩

/-- A division exercise out of one attempt satisfies the division invariants,
with its divisor a member of the configured division table set. -/
theorem attemptBody_div_spec (settings : UserSettings) (mastery : MasteryData)
    (availableOps : List Operation) (rs : ℕ → ℚ) (k : ℕ) (e : Exercise)
    (hdiv : Operation.division ∈ availableOps → settings.divisionTables ≠ [])
    (he : (attemptBody settings mastery availableOps rs k).1 = e)
    (hop : e.op = Operation.division) :
    e.a = e.b * e.result ∧ e.b ∈ settings.divisionTables := by
  unfold attemptBody at he
  dsimp only at he
  by_cases hpop : pickedOperation availableOps (rs k) = Operation.multiplication
  · rw [if_pos hpop] at he
    rw [← he] at hop
    rw [multExercise_op] at hop
    exact absurd hop.symm operation_div_ne_mult
  · rw [if_neg hpop] at he
    have hpd : pickedOperation availableOps (rs k) = Operation.division := by
      cases h : pickedOperation availableOps (rs k)
      · exact absurd h hpop
      · rfl
    have hne : settings.divisionTables ≠ [] :=
      hdiv (pickedOperation_div_mem availableOps (rs k) hpd)
    obtain ⟨_, hb, hab⟩ := divExercise_fields
      (pickedTable settings mastery (pickedOperation availableOps (rs k)) (rs (k + 1)))
      (masteryScore mastery (masteryKey (pickedOperation availableOps (rs k))
        (pickedTable settings mastery (pickedOperation availableOps (rs k)) (rs (k + 1)))))
      rs (k + 2)
    rw [he] at hb hab
    refine ⟨hab, ?_⟩
    rw [hb, hpd]
    have hmem := pickedTable_mem settings mastery
      (pickedOperation availableOps (rs k)) (rs (k + 1)) ?_
    · rw [hpd] at hmem
      simpa [selectedTablesFor, operation_div_ne_mult] using hmem
    · rw [hpd]
      simpa [selectedTablesFor, operation_div_ne_mult] using hne

/-- A multiplication exercise out of one attempt satisfies the multiplication
invariants; a compound exercise's `a` is a member of the configured
multiplication table set. -/
theorem attemptBody_mult_spec (settings : UserSettings) (mastery : MasteryData)
    (availableOps : List Operation) (rs : ℕ → ℚ) (k : ℕ) (e : Exercise)
    (hrs : ∀ n, 0 ≤ rs n ∧ rs n < 1) (hne : availableOps ≠ [])
    (hmul : Operation.multiplication ∈ availableOps → settings.multiplicationTables ≠ [])
    (he : (attemptBody settings mastery availableOps rs k).1 = e)
    (hop : e.op = Operation.multiplication) :
    (e.display = none → e.a * e.b = e.result) ∧
    (e.display ≠ none → e.a ∈ settings.multiplicationTables ∧
      0 ≤ e.b ∧ e.b ≤ 10 ∧ ∃ c, 1 ≤ c ∧ c ≤ 10 ∧ e.result = e.a * e.b + c) := by
  unfold attemptBody at he
  dsimp only at he
  by_cases hpop : pickedOperation availableOps (rs k) = Operation.multiplication
  · rw [if_pos hpop] at he
    obtain ⟨hplain, hcomp⟩ := multExercise_spec
      (pickedTable settings mastery (pickedOperation availableOps (rs k)) (rs (k + 1)))
      (masteryScore mastery (masteryKey (pickedOperation availableOps (rs k))
        (pickedTable settings mastery (pickedOperation availableOps (rs k)) (rs (k + 1)))))
      rs (k + 2) hrs
    rw [he] at hplain hcomp
    refine ⟨hplain, fun hd => ?_⟩
    obtain ⟨ha, hb0, hb1, c, hc1, hc2, hres⟩ := hcomp hd
    refine ⟨?_, hb0, hb1, c, hc1, hc2, hres⟩
    rw [ha, hpop]
    have hmne : settings.multiplicationTables ≠ [] := by
      apply hmul
      have := pickedOperation_mem availableOps (rs k) (hrs k).1 (hrs k).2 hne
      rwa [hpop] at this
    have hmem := pickedTable_mem settings mastery
      (pickedOperation availableOps (rs k)) (rs (k + 1)) ?_
    · rw [hpop] at hmem
      simpa [selectedTablesFor] using hmem
    · rw [hpop]
      simpa [selectedTablesFor] using hmne
  · rw [if_neg hpop] at he
    rw [← he] at hop
    rw [(divExercise_fields _ _ rs (k + 2)).1] at hop
    exact absurd hop operation_div_ne_mult

/-! ### Claim theorems -/

/-- C2 (as stated, refuted): the repeat check does NOT accept every candidate
with at least one differing field — this candidate differs from the previous
exercise in `b` and `result` but is rejected because `a` coincides. -/
theorem repeat_check_counterexample :
    acceptCandidate (some { a := 2, b := 3, op := Operation.multiplication, result := 6 })
        { a := 2, b := 4, op := Operation.multiplication, result := 8 } = false ∧
    ((2 : ℤ) ≠ 2 ∨ (4 : ℤ) ≠ 3 ∨ (8 : ℤ) ≠ 6) := by
  decide

/-- C2 (amended): with a previous exercise supplied, a candidate is accepted
exactly when all three of `a`, `b` and `result` differ from the previous
exercise's fields; it is rejected whenever any one of them coincides. -/
theorem repeat_check_requires_all_fields_differ (p n : Exercise) :
    acceptCandidate (some p) n = true ↔
      n.a ≠ p.a ∧ n.b ≠ p.b ∧ n.result ≠ p.result := by
  simp [acceptCandidate, and_assoc]

/-- C3: the mastery update stays in `[0,10]`: `+1` capped at `10` on correct,
`-1` floored at `0` otherwise, with a missing key reading as score `0`. -/
theorem mastery_update_spec (m : MasteryData) (k : String) (c : Bool)
    (h0 : 0 ≤ masteryScore m k) (h1 : masteryScore m k ≤ 10) :
    (0 ≤ nextScore (masteryScore m k) c ∧ nextScore (masteryScore m k) c ≤ 10) ∧
    masteryScore (masterySet m k (nextScore (masteryScore m k) c)) k =
      nextScore (masteryScore m k) c ∧
    (c = true → nextScore (masteryScore m k) c = min 10 (masteryScore m k + 1)) ∧
    (c = false → nextScore (masteryScore m k) c = max 0 (masteryScore m k - 1)) ∧
    (List.lookup k m = none → masteryScore m k = 0) := by
  refine ⟨?_, masteryScore_masterySet_self m k _, ?_, ?_, ?_⟩
  · unfold nextScore
    cases c <;> simp <;> omega
  · intro hc
    simp [nextScore, hc]
  · intro hc
    simp [nextScore, hc]
  · intro hl
    simp [masteryScore, hl]

/-- C4: weighted table selection: each table's weight is `11 - score` (in
`[1,11]` for scores in `[0,10]`), and for a draw `r ∈ [0, totalWeight)` the
selected index is in range and is the first index at which the remainder
`r - cumulativeWeight` drops to `≤ 0` (ties by iteration order). -/
theorem weighted_selection_spec (op : Operation) (tables : List ℤ)
    (mastery : MasteryData) (r : ℚ) (hne : tables ≠ [])
    (hscore : ∀ t ∈ tables, 0 ≤ masteryScore mastery (masteryKey op t) ∧
      masteryScore mastery (masteryKey op t) ≤ 10)
    (hr0 : 0 ≤ r) (hr1 : r < (((tableWeights op tables mastery).sum : ℤ) : ℚ)) :
    (∀ w ∈ tableWeights op tables mastery, 1 ≤ w ∧ w ≤ 11) ∧
    weightedIndex r (tableWeights op tables mastery) < tables.length ∧
    r - ((((tableWeights op tables mastery).take
        (weightedIndex r (tableWeights op tables mastery) + 1)).sum : ℤ) : ℚ) ≤ 0 ∧
    ∀ j < weightedIndex r (tableWeights op tables mastery),
      0 < r - ((((tableWeights op tables mastery).take (j + 1)).sum : ℤ) : ℚ) := by
  have hwne : tableWeights op tables mastery ≠ [] := by
    intro h
    apply hne
    have := congrArg List.length h
    simpa [tableWeights] using this
  obtain ⟨i, haux, hhit, hbefore⟩ := weightedIndexAux_first_hit
    (tableWeights op tables mastery) r hwne (le_of_lt hr1)
  have hwi : weightedIndex r (tableWeights op tables mastery) = i := by
    simp [weightedIndex, haux]
  refine ⟨?_, ?_, ?_, ?_⟩
  · intro w hw
    simp only [tableWeights, List.mem_map] at hw
    obtain ⟨t, ht, hwt⟩ := hw
    have := hscore t ht
    omega
  · rw [hwi]
    have := weightedIndexAux_lt_length _ r i haux
    simpa [tableWeights] using this
  · rw [hwi]
    exact hhit
  · rw [hwi]
    exact hbefore

/-- C5: every division exercise returned by `generateExercise` satisfies
`a = b * result`, with `b` the selected table, a member of the configured
division table set, and (under the settings invariant that `0` is excluded
from that set) non-zero — in all three difficulty bands. -/
theorem division_exercise_sound (settings : UserSettings) (mastery : MasteryData)
    (previous : Option Exercise) (rs : ℕ → ℚ) (e : Exercise)
    (hz : (0 : ℤ) ∉ settings.divisionTables)
    (hgen : generateExercise settings mastery previous rs = some e)
    (hop : e.op = Operation.division) :
    e.a = e.b * e.result ∧ e.b ∈ settings.divisionTables ∧ e.b ≠ 0 := by
  obtain ⟨hne, j, hj⟩ := generateExercise_some settings mastery previous rs e hgen
  have hdiv : Operation.division ∈ availableOperations settings →
      settings.divisionTables ≠ [] :=
    fun h => (mem_availableOperations settings _ h).2 rfl
  obtain ⟨hab, hmem⟩ := attemptBody_div_spec settings mastery _ rs j e hdiv hj hop
  exact ⟨hab, hmem, fun h0 => hz (h0 ▸ hmem)⟩

/-- C6: every multiplication exercise returned by `generateExercise`
satisfies `a * b = result`, except compound `display` exercises, which have
`a` equal to the selected table (a member of the configured multiplication
table set), `b ∈ [0,10]`, and `result = a * b + c` for some `c ∈ [1,10]`. -/
theorem multiplication_exercise_sound (settings : UserSettings) (mastery : MasteryData)
    (previous : Option Exercise) (rs : ℕ → ℚ) (e : Exercise)
    (hrs : ∀ n, 0 ≤ rs n ∧ rs n < 1)
    (hgen : generateExercise settings mastery previous rs = some e)
    (hop : e.op = Operation.multiplication) :
    (e.display = none → e.a * e.b = e.result) ∧
    (e.display ≠ none → e.a ∈ settings.multiplicationTables ∧
      0 ≤ e.b ∧ e.b ≤ 10 ∧ ∃ c, 1 ≤ c ∧ c ≤ 10 ∧ e.result = e.a * e.b + c) := by
  obtain ⟨hne, j, hj⟩ := generateExercise_some settings mastery previous rs e hgen
  exact attemptBody_mult_spec settings mastery _ rs j e hrs hne
    (fun h => (mem_availableOperations settings _ h).1 rfl) hj hop

/-- C9: with no `previous` exercise and at least one non-empty table set,
`generateExercise` always returns an exercise — the first candidate is
accepted unconditionally, so the 20-attempt exhaustion path needs a
`previous` exercise to be reachable. -/
theorem generate_no_previous_total (settings : UserSettings) (mastery : MasteryData)
    (rs : ℕ → ℚ)
    (h : settings.multiplicationTables ≠ [] ∨ settings.divisionTables ≠ []) :
    ∃ e, generateExercise settings mastery none rs = some e := by
  have hops : ¬((availableOperations settings).length = 0) := by
    unfold availableOperations
    rcases h with h | h
    · have hp : settings.multiplicationTables.length > 0 := List.length_pos.mpr h
      rw [if_pos hp]
      simp
    · have hp : settings.divisionTables.length > 0 := List.length_pos.mpr h
      rw [if_pos hp]
      simp
  refine ⟨(attemptBody settings mastery (availableOperations settings) rs 0).1, ?_⟩
  unfold generateExercise
  dsimp only
  rw [if_neg hops]
  rfl

/-- Reduction of the synchronous part of `handleAnswer` when an exercise is
current and no feedback is showing. -/
theorem handleAnswerImmediate_eq (st : SessionState) (ex : Exercise)
    (answer : Option String)
    (hex : st.currentExercise = some ex) (hfb : st.feedback = none) :
    handleAnswerImmediate st answer =
      { st with
        feedback := some (if isCorrectAnswer answer ex then Feedback.correct
          else Feedback.incorrect),
        mastery := masterySet st.mastery (masteryKey ex.op (creditedTable st.settings ex))
          (nextScore
            (masteryScore st.mastery (masteryKey ex.op (creditedTable st.settings ex)))
            (isCorrectAnswer answer ex)),
        stats := { correct := st.stats.correct + (if isCorrectAnswer answer ex then 1 else 0),
                   total := st.stats.total + 1 },
        history := st.history ++ [(ex, isCorrectAnswer answer ex)] } := by
  unfold handleAnswerImmediate
  rw [hex, hfb]
  simp

/-- Reduction of `handleAnswer` including the delayed advance. -/
theorem handleAnswerFull_eq (st : SessionState) (ex : Exercise)
    (answer : Option String) (rs : ℕ → ℚ)
    (hex : st.currentExercise = some ex) (hfb : st.feedback = none) :
    handleAnswerFull st answer rs =
      if st.stats.total + 1 ≥ 10 then
        { handleAnswerImmediate st answer with mode := Mode.results }
      else
        { handleAnswerImmediate st answer with
          currentExercise := generateExercise st.settings st.mastery (some ex) rs,
          userAnswer := "", feedback := none, timeLeft := 15 } := by
  unfold handleAnswerFull
  rw [hex, hfb]
  have hst : (handleAnswerImmediate st answer).stats.total = st.stats.total + 1 := by
    rw [handleAnswerImmediate_eq st ex answer hex hfb]
  simp only [Option.isSome_none, Bool.false_eq_true, if_false, hst]

def c1CounterState : SessionState :=
  { mode := Mode.practice,
    settings := { multiplicationTables := [2], divisionTables := [],
                  exerciseCount := ExerciseCount.c20 },
    mastery := [],
    currentExercise := some { a := 2, b := 3, op := Operation.multiplication, result := 6 },
    userAnswer := "",
    feedback := none,
    stats := { correct := 0, total := 9 },
    history := [],
    timeLeft := 5 }

/-- C1 (as stated, refuted at a concrete state): with `exerciseCount = 20`
configured, answering the 10th question (not the 20th) already transitions
the state machine to `results` — the configured count is never consulted. -/
theorem session_completion_counterexample :
    c1CounterState.settings.exerciseCount = ExerciseCount.c20 ∧
    c1CounterState.stats.total + 1 = 10 ∧ 10 < 20 ∧
    (handleAnswerFull c1CounterState none (fun _ => 0)).mode = Mode.results := by
  refine ⟨rfl, rfl, by decide, ?_⟩
  rw [handleAnswerFull_eq c1CounterState
    { a := 2, b := 3, op := Operation.multiplication, result := 6 }
    none (fun _ => 0) rfl rfl]
  rfl

/-- C1 (amended): after the answered question brings `stats.total` to the
hard-coded `10` (the configured `exerciseCount` is never consulted), the
state machine transitions to `results`; below `10` it stays in the current
mode, generates the next exercise from the just-answered one as `previous`
(using the pre-update mastery captured by the callback closure), clears the
feedback and the input, and resets the timer. -/
theorem session_completion_spec (st : SessionState) (ex : Exercise)
    (answer : Option String) (rs : ℕ → ℚ)
    (hex : st.currentExercise = some ex) (hfb : st.feedback = none) :
    (st.stats.total + 1 ≥ 10 → (handleAnswerFull st answer rs).mode = Mode.results) ∧
    (st.stats.total + 1 < 10 →
      (handleAnswerFull st answer rs).mode = st.mode ∧
      (handleAnswerFull st answer rs).currentExercise =
        generateExercise st.settings st.mastery (some ex) rs ∧
      (handleAnswerFull st answer rs).feedback = none ∧
      (handleAnswerFull st answer rs).userAnswer = "" ∧
      (handleAnswerFull st answer rs).stats.total = st.stats.total + 1 ∧
      (handleAnswerFull st answer rs).timeLeft = 15) := by
  rw [handleAnswerFull_eq st ex answer rs hex hfb]
  constructor
  · intro h
    rw [if_pos h]
  · intro h
    rw [if_neg (by omega)]
    refine ⟨?_, rfl, rfl, rfl, ?_, rfl⟩
    · rw [handleAnswerImmediate_eq st ex answer hex hfb]
    · rw [handleAnswerImmediate_eq st ex answer hex hfb]

/-- C7: the mastery key updated by answering is built from the credited
table — for multiplication `a` when `a` is in the configured multiplication
set and `b` otherwise, for division always `b` — and no other key changes. -/
theorem credited_table_spec (st : SessionState) (ex : Exercise) (answer : Option String)
    (hex : st.currentExercise = some ex) (hfb : st.feedback = none) :
    ((ex.op = Operation.multiplication →
        creditedTable st.settings ex =
          if st.settings.multiplicationTables.contains ex.a then ex.a else ex.b) ∧
      (ex.op = Operation.division → creditedTable st.settings ex = ex.b)) ∧
    masteryScore (handleAnswerImmediate st answer).mastery
        (masteryKey ex.op (creditedTable st.settings ex)) =
      nextScore (masteryScore st.mastery (masteryKey ex.op (creditedTable st.settings ex)))
        (isCorrectAnswer answer ex) ∧
    ∀ k2, k2 ≠ masteryKey ex.op (creditedTable st.settings ex) →
      masteryScore (handleAnswerImmediate st answer).mastery k2 = masteryScore st.mastery k2 := by
  refine ⟨⟨?_, ?_⟩, ?_, ?_⟩
  · intro hop
    simp [creditedTable, hop]
  · intro hop
    simp [creditedTable, hop]
  · rw [handleAnswerImmediate_eq st ex answer hex hfb]
    exact masteryScore_masterySet_self _ _ _
  · intro k2 hk2
    rw [handleAnswerImmediate_eq st ex answer hex hfb]
    exact masteryScore_masterySet_ne _ _ _ _ hk2

/-- C8: when the countdown reaches `≤ 0` (the tick fires exactly when the
decremented time would be `≤ 0`), the automatic `null` submission is scored
exactly like an incorrect manual answer: identical resulting state, feedback
`incorrect`, `total` incremented with `correct` unchanged, `(exercise, false)`
appended to history, and the credited mastery score decremented
(floored at 0). -/
theorem timeout_scored_as_incorrect (st : SessionState) (ex : Exercise)
    (s : String) (t : ℚ)
    (hex : st.currentExercise = some ex) (hfb : st.feedback = none)
    (hwrong : jsParseInt s ≠ some ex.result) :
    ((tickTimer t).2 = true ↔ t - 1/20 ≤ 0) ∧
    handleAnswerImmediate st none = handleAnswerImmediate st (some s) ∧
    (handleAnswerImmediate st none).feedback = some Feedback.incorrect ∧
    (handleAnswerImmediate st none).stats.total = st.stats.total + 1 ∧
    (handleAnswerImmediate st none).stats.correct = st.stats.correct ∧
    (handleAnswerImmediate st none).history = st.history ++ [(ex, false)] ∧
    masteryScore (handleAnswerImmediate st none).mastery
        (masteryKey ex.op (creditedTable st.settings ex)) =
      max 0 (masteryScore st.mastery (masteryKey ex.op (creditedTable st.settings ex)) - 1) := by
  have hcn : isCorrectAnswer none ex = false := rfl
  have hcs : isCorrectAnswer (some s) ex = false := by
    simp [isCorrectAnswer, hwrong]
  refine ⟨?_, ?_, ?_, ?_, ?_, ?_, ?_⟩
  · unfold tickTimer
    split_ifs with hc <;> simp <;> linarith
  · rw [handleAnswerImmediate_eq st ex none hex hfb,
      handleAnswerImmediate_eq st ex (some s) hex hfb, hcn, hcs]
  · rw [handleAnswerImmediate_eq st ex none hex hfb, hcn]
    rfl
  · rw [handleAnswerImmediate_eq st ex none hex hfb]
  · rw [handleAnswerImmediate_eq st ex none hex hfb, hcn]
    rfl
  · rw [handleAnswerImmediate_eq st ex none hex hfb, hcn]
  · rw [handleAnswerImmediate_eq st ex none hex hfb, hcn]
    rw [masteryScore_masterySet_self]
    rfl

/-- C10: a non-empty typed answer is judged correct exactly when
`parseInt` of the string equals the exercise's `result`; in particular
`parseInt` keeps only the leading digits, so `"12abc"` parses to `12`. -/
theorem answer_judged_by_parseInt (st : SessionState) (ex : Exercise)
    (hne : st.userAnswer ≠ "") (hex : st.currentExercise = some ex)
    (hfb : st.feedback = none) :
    ((handleSubmit st).feedback = some Feedback.correct ↔
      jsParseInt st.userAnswer = some ex.result) ∧
    jsParseInt "12abc" = some 12 := by
  constructor
  · unfold handleSubmit
    rw [if_neg hne, handleAnswerImmediate_eq st ex (some st.userAnswer) hex hfb]
    by_cases hc : jsParseInt st.userAnswer = some ex.result
    · simp [isCorrectAnswer, hc]
    · simp [isCorrectAnswer, hc]
  · decide

/-! ### Concrete witnesses -/

def c1State : SessionState :=
  { mode := Mode.practice,
    settings := { multiplicationTables := [3], divisionTables := [],
                  exerciseCount := ExerciseCount.c10 },
    mastery := [],
    currentExercise := some { a := 3, b := 4, op := Operation.multiplication, result := 12 },
    userAnswer := "7",
    feedback := none,
    stats := { correct := 2, total := 3 },
    history := [],
    timeLeft := 9 }

/-- Witness for the amended C1 at a concrete mid-session state. -/
theorem session_completion_spec_witness :
    (c1State.currentExercise =
        some { a := 3, b := 4, op := Operation.multiplication, result := 12 } ∧
      c1State.feedback = none) ∧
    ((c1State.stats.total + 1 ≥ 10 →
        (handleAnswerFull c1State (some "12") (fun _ => 0)).mode = Mode.results) ∧
      (c1State.stats.total + 1 < 10 →
        (handleAnswerFull c1State (some "12") (fun _ => 0)).mode = c1State.mode ∧
        (handleAnswerFull c1State (some "12") (fun _ => 0)).currentExercise =
          generateExercise c1State.settings c1State.mastery
            (some { a := 3, b := 4, op := Operation.multiplication, result := 12 })
            (fun _ => 0) ∧
        (handleAnswerFull c1State (some "12") (fun _ => 0)).feedback = none ∧
        (handleAnswerFull c1State (some "12") (fun _ => 0)).userAnswer = "" ∧
        (handleAnswerFull c1State (some "12") (fun _ => 0)).stats.total =
          c1State.stats.total + 1 ∧
        (handleAnswerFull c1State (some "12") (fun _ => 0)).timeLeft = 15)) :=
  ⟨⟨rfl, rfl⟩,
    session_completion_spec c1State
      { a := 3, b := 4, op := Operation.multiplication, result := 12 }
      (some "12") (fun _ => 0) rfl rfl⟩

/-- Witness for C3 at the empty mastery map and a correct answer. -/
theorem mastery_update_spec_witness :
    (0 ≤ masteryScore ([] : MasteryData) "multiplication-3" ∧
      masteryScore ([] : MasteryData) "multiplication-3" ≤ 10) ∧
    (0 ≤ nextScore (masteryScore ([] : MasteryData) "multiplication-3") true ∧
      nextScore (masteryScore ([] : MasteryData) "multiplication-3") true ≤ 10) :=
  ⟨⟨by decide, by decide⟩,
    (mastery_update_spec ([] : MasteryData) "multiplication-3" true
      (by decide) (by decide)).1⟩

def c4Weights : List ℤ := tableWeights Operation.multiplication [2, 3] ([] : MasteryData)

theorem c4_weights_eval : c4Weights = [11, 11] := by
  norm_num [c4Weights, tableWeights, masteryScore, List.lookup]

/-- Witness for C4 with two fresh tables and a draw of `3/2`. -/
theorem weighted_selection_spec_witness :
    (([2, 3] : List ℤ) ≠ [] ∧ (0 : ℚ) ≤ 3/2 ∧
      (3/2 : ℚ) < (((tableWeights Operation.multiplication [2, 3]
        ([] : MasteryData)).sum : ℤ) : ℚ)) ∧
    (weightedIndex (3/2) (tableWeights Operation.multiplication [2, 3]
        ([] : MasteryData)) < ([2, 3] : List ℤ).length ∧
      (3/2 : ℚ) - ((((tableWeights Operation.multiplication [2, 3]
          ([] : MasteryData)).take
        (weightedIndex (3/2) (tableWeights Operation.multiplication [2, 3]
          ([] : MasteryData)) + 1)).sum : ℤ) : ℚ) ≤ 0) :=
  ⟨⟨by decide, by norm_num,
      by rw [show tableWeights Operation.multiplication [2, 3] ([] : MasteryData)
          = c4Weights from rfl, c4_weights_eval]; norm_num⟩,
    ⟨(weighted_selection_spec Operation.multiplication [2, 3] ([] : MasteryData) (3/2)
        (by decide)
        (by intro t ht; refine ⟨?_, ?_⟩ <;> norm_num [masteryScore, List.lookup])
        (by norm_num)
        (by rw [show tableWeights Operation.multiplication [2, 3] ([] : MasteryData)
            = c4Weights from rfl, c4_weights_eval]; norm_num)).2.1,
      (weighted_selection_spec Operation.multiplication [2, 3] ([] : MasteryData) (3/2)
        (by decide)
        (by intro t ht; refine ⟨?_, ?_⟩ <;> norm_num [masteryScore, List.lookup])
        (by norm_num)
        (by rw [show tableWeights Operation.multiplication [2, 3] ([] : MasteryData)
            = c4Weights from rfl, c4_weights_eval]; norm_num)).2.2.1⟩⟩

def c5Settings : UserSettings :=
  { multiplicationTables := [], divisionTables := [2], exerciseCount := ExerciseCount.c10 }

def c5Exercise : Exercise := { a := 2, b := 2, op := Operation.division, result := 1 }

theorem c5_gen_eval : generateExercise c5Settings [] none (fun _ => 0) = some c5Exercise := by
  norm_num [generateExercise, availableOperations, c5Settings, c5Exercise, generateLoop,
    attemptBody, pickedOperation, pickedTable, selectedTablesFor, tableWeights, masteryScore,
    masteryKey, opName, weightedIndex, weightedIndexAux, divExercise, divPlain,
    acceptCandidate, List.lookup, List.getD, operation_div_ne_mult]

/-- Witness for C5 at a concrete division-only configuration. -/
theorem division_exercise_sound_witness :
    ((0 : ℤ) ∉ c5Settings.divisionTables ∧
      generateExercise c5Settings [] none (fun _ => 0) = some c5Exercise ∧
      c5Exercise.op = Operation.division) ∧
    (c5Exercise.a = c5Exercise.b * c5Exercise.result ∧
      c5Exercise.b ∈ c5Settings.divisionTables ∧ c5Exercise.b ≠ 0) :=
  ⟨⟨by decide, c5_gen_eval, rfl⟩,
    division_exercise_sound c5Settings [] none (fun _ => 0) c5Exercise
      (by decide) c5_gen_eval rfl⟩

def c6Settings : UserSettings :=
  { multiplicationTables := [2], divisionTables := [], exerciseCount := ExerciseCount.c10 }

def c6Exercise : Exercise := { a := 0, b := 2, op := Operation.multiplication, result := 0 }

theorem c6_gen_eval : generateExercise c6Settings [] none (fun _ => 0) = some c6Exercise := by
  norm_num [generateExercise, availableOperations, c6Settings, c6Exercise, generateLoop,
    attemptBody, pickedOperation, pickedTable, selectedTablesFor, tableWeights, masteryScore,
    masteryKey, opName, weightedIndex, weightedIndexAux, multExercise, multPlain,
    acceptCandidate, List.lookup, List.getD]

/-- Witness for C6 at a concrete multiplication-only configuration. -/
theorem multiplication_exercise_sound_witness :
    ((∀ n : ℕ, 0 ≤ (fun _ : ℕ => (0 : ℚ)) n ∧ (fun _ : ℕ => (0 : ℚ)) n < 1) ∧
      generateExercise c6Settings [] none (fun _ => 0) = some c6Exercise ∧
      c6Exercise.op = Operation.multiplication) ∧
    (c6Exercise.display = none → c6Exercise.a * c6Exercise.b = c6Exercise.result) :=
  ⟨⟨fun _ => ⟨by norm_num, by norm_num⟩, c6_gen_eval, rfl⟩,
    (multiplication_exercise_sound c6Settings [] none (fun _ => 0) c6Exercise
      (fun _ => ⟨by norm_num, by norm_num⟩) c6_gen_eval rfl).1⟩

def c7State : SessionState :=
  { mode := Mode.practice,
    settings := { multiplicationTables := [5], divisionTables := [],
                  exerciseCount := ExerciseCount.c10 },
    mastery := [("multiplication-5", 4)],
    currentExercise := some { a := 5, b := 7, op := Operation.multiplication, result := 35 },
    userAnswer := "",
    feedback := none,
    stats := { correct := 0, total := 0 },
    history := [],
    timeLeft := 15 }

/-- Witness for C7 at a concrete multiplication exercise. -/
theorem credited_table_spec_witness :
    (c7State.currentExercise =
        some { a := 5, b := 7, op := Operation.multiplication, result := 35 } ∧
      c7State.feedback = none) ∧
    (((({ a := 5, b := 7, op := Operation.multiplication, result := 35 } : Exercise).op =
          Operation.multiplication →
        creditedTable c7State.settings
            { a := 5, b := 7, op := Operation.multiplication, result := 35 } =
          if c7State.settings.multiplicationTables.contains
              ({ a := 5, b := 7, op := Operation.multiplication, result := 35 } : Exercise).a
            then ({ a := 5, b := 7, op := Operation.multiplication, result := 35 } : Exercise).a
            else ({ a := 5, b := 7, op := Operation.multiplication, result := 35 } : Exercise).b) ∧
      (({ a := 5, b := 7, op := Operation.multiplication, result := 35 } : Exercise).op =
          Operation.division →
        creditedTable c7State.settings
            { a := 5, b := 7, op := Operation.multiplication, result := 35 } =
          ({ a := 5, b := 7, op := Operation.multiplication, result := 35 } : Exercise).b)) ∧
      masteryScore (handleAnswerImmediate c7State none).mastery
          (masteryKey Operation.multiplication
            (creditedTable c7State.settings
              { a := 5, b := 7, op := Operation.multiplication, result := 35 })) =
        nextScore
          (masteryScore c7State.mastery
            (masteryKey Operation.multiplication
              (creditedTable c7State.settings
                { a := 5, b := 7, op := Operation.multiplication, result := 35 })))
          (isCorrectAnswer none
            { a := 5, b := 7, op := Operation.multiplication, result := 35 })) :=
  ⟨⟨rfl, rfl⟩,
    ⟨(credited_table_spec c7State
        { a := 5, b := 7, op := Operation.multiplication, result := 35 } none rfl rfl).1,
      (credited_table_spec c7State
        { a := 5, b := 7, op := Operation.multiplication, result := 35 } none rfl rfl).2.1⟩⟩

def c8State : SessionState :=
  { mode := Mode.practice,
    settings := { multiplicationTables := [4], divisionTables := [],
                  exerciseCount := ExerciseCount.c10 },
    mastery := [("multiplication-4", 2)],
    currentExercise := some { a := 4, b := 6, op := Operation.multiplication, result := 24 },
    userAnswer := "",
    feedback := none,
    stats := { correct := 1, total := 2 },
    history := [],
    timeLeft := 0 }

/-- Witness for C8: an expired timer at a concrete state, compared against
the wrong manual answer `"25"`. -/
theorem timeout_scored_as_incorrect_witness :
    (c8State.currentExercise =
        some { a := 4, b := 6, op := Operation.multiplication, result := 24 } ∧
      c8State.feedback = none ∧
      jsParseInt "25" ≠
        some ({ a := 4, b := 6, op := Operation.multiplication, result := 24 } : Exercise).result) ∧
    (((tickTimer 0).2 = true ↔ (0 : ℚ) - 1/20 ≤ 0) ∧
      handleAnswerImmediate c8State none = handleAnswerImmediate c8State (some "25") ∧
      (handleAnswerImmediate c8State none).feedback = some Feedback.incorrect ∧
      (handleAnswerImmediate c8State none).stats.total = c8State.stats.total + 1 ∧
      (handleAnswerImmediate c8State none).stats.correct = c8State.stats.correct ∧
      (handleAnswerImmediate c8State none).history =
        c8State.history ++
          [({ a := 4, b := 6, op := Operation.multiplication, result := 24 }, false)] ∧
      masteryScore (handleAnswerImmediate c8State none).mastery
          (masteryKey Operation.multiplication
            (creditedTable c8State.settings
              { a := 4, b := 6, op := Operation.multiplication, result := 24 })) =
        max 0 (masteryScore c8State.mastery
          (masteryKey Operation.multiplication
            (creditedTable c8State.settings
              { a := 4, b := 6, op := Operation.multiplication, result := 24 })) - 1)) :=
  ⟨⟨rfl, rfl, by decide⟩,
    timeout_scored_as_incorrect c8State
      { a := 4, b := 6, op := Operation.multiplication, result := 24 }
      "25" 0 rfl rfl (by decide)⟩

def c9Settings : UserSettings :=
  { multiplicationTables := [7], divisionTables := [], exerciseCount := ExerciseCount.c10 }

/-- Witness for C9: with the table `7` configured, generation with no
previous exercise returns an exercise. -/
theorem generate_no_previous_total_witness :
    (c9Settings.multiplicationTables ≠ [] ∨ c9Settings.divisionTables ≠ []) ∧
    generateExercise c9Settings [] none (fun _ => 0) ≠ none := by
  refine ⟨Or.inl (by decide), ?_⟩
  obtain ⟨e, he⟩ := generate_no_previous_total c9Settings [] (fun _ => 0)
    (Or.inl (by decide))
  simp [he]

def c10State : SessionState :=
  { mode := Mode.practice,
    settings := { multiplicationTables := [3], divisionTables := [],
                  exerciseCount := ExerciseCount.c10 },
    mastery := [],
    currentExercise := some { a := 3, b := 4, op := Operation.multiplication, result := 12 },
    userAnswer := "12abc",
    feedback := none,
    stats := { correct := 0, total := 0 },
    history := [],
    timeLeft := 15 }

/-- Witness for C10: the answer `"12abc"` against the result `12`. -/
theorem answer_judged_by_parseInt_witness :
    (c10State.userAnswer ≠ "" ∧
      c10State.currentExercise =
        some { a := 3, b := 4, op := Operation.multiplication, result := 12 } ∧
      c10State.feedback = none) ∧
    (((handleSubmit c10State).feedback = some Feedback.correct ↔
        jsParseInt c10State.userAnswer =
          some ({ a := 3, b := 4, op := Operation.multiplication, result := 12 } : Exercise).result) ∧
      jsParseInt "12abc" = some 12) :=
  ⟨⟨by decide, rfl, rfl⟩,
    answer_judged_by_parseInt c10State
      { a := 3, b := 4, op := Operation.multiplication, result := 12 }
      (by decide) rfl rfl⟩
